import Mathlib

/-!
Verification development for the Avito position tracker (`main.py`).

The Python source is shallowly embedded: pure helpers become Lean
functions, the orchestration loop in `run` becomes an explicit state
interpreter over an environment describing the outcomes of the
network-bound steps (navigation, block detection, extraction), and
exceptions become explicit exit kinds.  File-system and logging side
effects are out of scope of the claims and are dropped; the persistence
sink `save_results` is modelled as a pure function from the cumulative
record list to the artifact contents it writes.
-/

namespace Avito

/-! ## Keyword Matcher (`is_mine`, main.py lines 119-125) -/

/-- Models Python `str.lower` on a single character for the character
ranges the program actually meets: ASCII letters and the Cyrillic block
used by the Avito listings (А-Я and Ё).  Other characters are unchanged. -/
def pyLowerChar (c : Char) : Char :=
  if 'A' ≤ c ∧ c ≤ 'Z' then Char.ofNat (c.toNat + 32)
  else if 0x410 ≤ c.toNat ∧ c.toNat ≤ 0x42F then Char.ofNat (c.toNat + 32)
  else if c.toNat = 0x401 then Char.ofNat 0x451
  else c

/-- Models Python `str.lower`. -/
def pyLower (s : String) : String := (s.toList.map pyLowerChar).asString

/-- Models the Python substring test `needle in hay` on strings
(contiguous-substring containment; the empty needle is contained in
everything). -/
def listContains (needle : List Char) : List Char → Bool
  | [] => List.isPrefixOf needle []
  | c :: rest => List.isPrefixOf needle (c :: rest) || listContains needle rest

/-- Python `needle in hay` for `String`. -/
def strContains (needle hay : String) : Bool := listContains needle.toList hay.toList

/-- Function `is_mine(title, keyword_groups)` (main.py lines 119-125): true iff some
OR-group has every word contained, case-insensitively, in the title. -/
def is_mine (title : String) (keyword_groups : List (List String)) : Bool :=
  let title_lower := pyLower title
  keyword_groups.any fun group =>
    group.all fun word => strContains (pyLower word) title_lower

/-! ## Config loading (`load_config`, main.py lines 34-55) -/

/-- A JSON scalar as it appears in `config.json` (the recognized keys hold
booleans and numbers). -/
inductive JVal where
  | b (v : Bool)
  | n (v : Nat)
deriving DecidableEq

/-- Models Python `dict.setdefault(k, v)` on an association list with
unique keys: the binding is added only when the key is absent. -/
def setdefault (cfg : List (String × JVal)) (k : String) (v : JVal) :
    List (String × JVal) :=
  match List.lookup k cfg with
  | some _ => cfg
  | none => cfg ++ [(k, v)]

/-- The `defaults` dict of `load_config`, in source order. -/
def config_defaults : List (String × JVal) :=
  [("headless", .b true), ("min_delay", .n 3), ("max_delay", .n 12),
   ("long_pause_every", .n 25), ("long_pause_min", .n 15),
   ("long_pause_max", .n 30), ("page_timeout", .n 30000),
   ("selector_timeout", .n 10000), ("max_retries", .n 2)]

/-- Function `load_config` (main.py lines 34-55), applied to the already-parsed
JSON object (file reading is an external effect): for every default,
`cfg.setdefault(k, v)`. -/
def load_config (cfg : List (String × JVal)) : List (String × JVal) :=
  config_defaults.foldl (fun c kv => setdefault c kv.1 kv.2) cfg

/-! ## URL parsing (`parse_category_path`, main.py lines 58-72)

The source uses `urllib.parse.urlparse`, `parse_qs` and `urlencode`.
These stdlib helpers are embedded below at the fidelity the program
exercises: path/query/fragment splitting, `&`-field splitting with
dropped blank values, percent/plus decoding of UTF-8 byte sequences and
the matching `quote_plus` encoding. -/

/-- Split a character list at the first occurrence of `sep`: returns the
part before and, when `sep` occurs, the part after it. -/
def splitAtFirst : List Char → Char → List Char × Option (List Char)
  | [], _ => ([], none)
  | c :: rest, sep =>
    if c = sep then ([], some rest)
    else
      let r := splitAtFirst rest sep
      (c :: r.1, r.2)

/-- Models Python `str.split(sep)` (full split; an empty input yields one
empty field, as in Python). -/
def splitOnChar : List Char → Char → List (List Char)
  | [], _ => [[]]
  | c :: rest, sep =>
    if c = sep then [] :: splitOnChar rest sep
    else
      match splitOnChar rest sep with
      | [] => [[c]]
      | h :: t => (c :: h) :: t

/-- The UTF-8 encoding of one character, as a list of byte values. -/
def charUtf8 (c : Char) : List Nat :=
  let n := c.toNat
  if n < 0x80 then [n]
  else if n < 0x800 then [0xC0 + n / 64, 0x80 + n % 64]
  else if n < 0x10000 then
    [0xE0 + n / 4096, 0x80 + n / 64 % 64, 0x80 + n % 64]
  else
    [0xF0 + n / 262144, 0x80 + n / 4096 % 64, 0x80 + n / 64 % 64,
     0x80 + n % 64]

/-- Is `b` a UTF-8 continuation byte? -/
def isContByte (b : Nat) : Bool := 0x80 ≤ b && b < 0xC0

/-- The replacement character produced for undecodable bytes
(Python decodes percent-escapes with `errors="replace"`). -/
def replChar : Char := Char.ofNat 0xFFFD

/-- Decode a UTF-8 byte sequence to characters, one replacement character
per undecodable lead byte (overlong/surrogate corner cases are folded
into `Char.ofNat`'s validity fallback; no percent-escape in this
development's theorems reaches them).  The `fuel` argument only
bounds the recursion; every step consumes at least one byte, so fuel
equal to the input length never runs out. -/
def utf8DecodeGo : Nat → List Nat → List Char
  | _, [] => []
  | 0, _ :: _ => []
  | fuel + 1, b :: rest =>
    if b < 0x80 then Char.ofNat b :: utf8DecodeGo fuel rest
    else if b < 0xC2 then replChar :: utf8DecodeGo fuel rest
    else if b < 0xE0 then
      match rest with
      | b2 :: rest2 =>
        if isContByte b2 then
          Char.ofNat ((b - 0xC0) * 64 + (b2 - 0x80)) :: utf8DecodeGo fuel rest2
        else replChar :: utf8DecodeGo fuel rest
      | [] => [replChar]
    else if b < 0xF0 then
      match rest with
      | b2 :: b3 :: rest3 =>
        if isContByte b2 && isContByte b3 then
          Char.ofNat ((b - 0xE0) * 4096 + (b2 - 0x80) * 64 + (b3 - 0x80)) ::
            utf8DecodeGo fuel rest3
        else replChar :: utf8DecodeGo fuel rest
      | _ => [replChar]
    else if b < 0xF5 then
      match rest with
      | b2 :: b3 :: b4 :: rest4 =>
        if isContByte b2 && isContByte b3 && isContByte b4 then
          Char.ofNat ((b - 0xF0) * 262144 + (b2 - 0x80) * 4096 +
              (b3 - 0x80) * 64 + (b4 - 0x80)) :: utf8DecodeGo fuel rest4
        else replChar :: utf8DecodeGo fuel rest
      | _ => [replChar]
    else replChar :: utf8DecodeGo fuel rest

/-- Decode a UTF-8 byte sequence (see `utf8DecodeGo`). -/
def utf8Decode (bs : List Nat) : List Char := utf8DecodeGo bs.length bs

/-- Is `c` an ASCII hexadecimal digit? -/
def isHexDigit (c : Char) : Bool :=
  c.isDigit || ('a' ≤ c && c ≤ 'f') || ('A' ≤ c && c ≤ 'F')

/-- Value of an ASCII hexadecimal digit. -/
def hexVal (c : Char) : Nat :=
  if c.isDigit then c.toNat - '0'.toNat
  else if 'a' ≤ c && c ≤ 'f' then c.toNat - 'a'.toNat + 10
  else c.toNat - 'A'.toNat + 10

/-- Turn a percent-escaped character list into the byte sequence Python's
`unquote` assembles: a valid `%XX` escape contributes one byte, every
other character contributes its own UTF-8 bytes.  Fuel as in
`utf8DecodeGo`. -/
def pctBytesGo : Nat → List Char → List Nat
  | _, [] => []
  | 0, _ :: _ => []
  | fuel + 1, c :: rest =>
    if c = '%' then
      match rest with
      | h1 :: h2 :: rest2 =>
        if isHexDigit h1 && isHexDigit h2 then
          (hexVal h1 * 16 + hexVal h2) :: pctBytesGo fuel rest2
        else charUtf8 c ++ pctBytesGo fuel rest
      | _ => charUtf8 c ++ pctBytesGo fuel rest
    else charUtf8 c ++ pctBytesGo fuel rest

/-- Percent-escape assembly over a character list (see `pctBytesGo`). -/
def pctBytes (l : List Char) : List Nat := pctBytesGo l.length l

/-- Models Python `urllib.parse.unquote_plus`: `+` becomes a space, then
percent-escapes are decoded as UTF-8 bytes. -/
def unquote_plus (l : List Char) : List Char :=
  utf8Decode (pctBytes (l.map fun c => if c = '+' then ' ' else c))

/-- The uppercase hexadecimal digit of value `n < 16`. -/
def hexDigitChar (n : Nat) : Char :=
  if n < 10 then Char.ofNat ('0'.toNat + n) else Char.ofNat ('A'.toNat + n - 10)

/-- Characters `urllib.parse.quote` never escapes: ASCII letters
(`a-z`, `A-Z`), digits and `_.-~`. -/
def quoteSafe (c : Char) : Bool :=
  (97 ≤ c.toNat && c.toNat ≤ 122) || (65 ≤ c.toNat && c.toNat ≤ 90) ||
    (48 ≤ c.toNat && c.toNat ≤ 57) || c = '_' || c = '.' || c = '-' || c = '~'

/-- Models Python `urllib.parse.quote_plus` with the empty safe set used
by `urlencode`: spaces become `+`, safe characters pass through, every
other character is percent-escaped byte by byte (uppercase hex). -/
def quote_plus (l : List Char) : List Char :=
  (l.map fun c =>
    if quoteSafe c then [c]
    else if c = ' ' then ['+']
    else ((charUtf8 c).map fun b =>
      ['%', hexDigitChar (b / 16), hexDigitChar (b % 16)]).flatten).flatten

/-- May `c` occur in a URL scheme (`urllib`'s `scheme_chars`): ASCII
letters, digits and `+-.`? -/
def schemeChar (c : Char) : Bool :=
  (97 ≤ c.toNat && c.toNat ≤ 122) || (65 ≤ c.toNat && c.toNat ≤ 90) ||
    (48 ≤ c.toNat && c.toNat ≤ 57) || c = '+' || c = '-' || c = '.'

/-- Strip a leading `scheme:` when the part before the first `:` is a
valid non-empty scheme starting with a letter (as `urlsplit` does). -/
def splitScheme (s : List Char) : List Char :=
  match splitAtFirst s ':' with
  | (before, some rest) =>
    match before with
    | [] => s
    | c0 :: _ =>
      if ((97 ≤ c0.toNat && c0.toNat ≤ 122) ||
          (65 ≤ c0.toNat && c0.toNat ≤ 90)) && before.all schemeChar then rest
      else s
  | (_, none) => s

/-- The `path` component of `urlparse` for a URL whose fragment and query
have already been removed: after the scheme, a `//netloc` part extends to
the next `/`. -/
def urlPathOf (s : List Char) : List Char :=
  let r := splitScheme s
  if List.isPrefixOf ['/', '/'] r then
    match splitAtFirst (r.drop 2) '/' with
    | (_, some p) => '/' :: p
    | (_, none) => []
  else r

/-- Is `c` a C0 control character or a space?  `urlsplit` strips this
WHATWG set from the start of the URL before parsing. -/
def c0ControlOrSpace (c : Char) : Bool := c.toNat ≤ 0x20

/-- Is `c` one of the unsafe URL bytes (tab, CR, LF) that `urlsplit`
removes from the whole URL before parsing? -/
def isUnsafeUrlByte (c : Char) : Bool := c = '\t' || c = '\r' || c = '\n'

/-- The cleanup `urlsplit` applies before parsing: strip leading
C0-control/space characters, then delete every tab, CR and LF. -/
def cleanUrl (l : List Char) : List Char :=
  (l.dropWhile c0ControlOrSpace).filter fun c => !isUnsafeUrlByte c

/-- Models `urlparse`'s `_splitparams` as applied to the path component:
when the path contains `;`, a `;params` suffix of the last path segment
is cut off (the search for `;` starts at the last `/`, so a `;` in an
earlier segment is kept; with no `/` at all the cut is at the first `;`). -/
def splitParams (path : List Char) : List Char :=
  if ';' ∈ path then
    match splitAtFirst path.reverse '/' with
    | (revLast, some revInit) =>
      if ';' ∈ revLast.reverse then
        revInit.reverse ++ '/' :: (splitAtFirst revLast.reverse ';').1
      else path
    | (_, none) => (splitAtFirst path ';').1
  else path

/-- Computes `urlparse(url).path` and `urlparse(url).query` (fragment and
params discarded, as the source reads only `.path` and `.query`): the URL
is cleaned as `urlsplit` does, fragment and query are split off, the
scheme/netloc are removed, and the `;params` suffix of the last path
segment is cut. -/
def urlPathQuery (url : List Char) : List Char × List Char :=
  let cleaned := cleanUrl url
  let beforeFrag := (splitAtFirst cleaned '#').1
  let split := splitAtFirst beforeFrag '?'
  (splitParams (urlPathOf split.1), (split.2).getD [])

/-- Models `parse_qs(query)` restricted to the lookup the source performs:
the first value bound to `key`.  Fields are split on `&`, empty fields
and fields without `=` or with an empty raw value are dropped
(`keep_blank_values` is false), names and values are `unquote_plus`-ed. -/
def parse_qs_first (query : List Char) (key : List Char) : Option (List Char) :=
  let pairs := (splitOnChar query '&').filterMap fun f =>
    if f = [] then none
    else
      match splitAtFirst f '=' with
      | (_, none) => none
      | (n, some v) =>
        if v = [] then none else some (unquote_plus n, unquote_plus v)
  (pairs.find? fun p => p.1 == key).map (·.2)

/-- Models `urlencode({"q": v})`: the single pair rendered as `q=` followed by
the `quote_plus`-encoded value. -/
def urlencode_q (v : List Char) : List Char := 'q' :: '=' :: quote_plus v

/-- The accepted URL prefixes of `parse_category_path`, in source order. -/
def urlBaseHttps : String := "https://www.avito.ru/all/"

/-- The second accepted URL prefix (plain HTTP). -/
def urlBaseHttp : String := "http://www.avito.ru/all/"

/-- Function `parse_category_path` (main.py lines 58-72): for a URL starting with
one of the two accepted prefixes, returns the path after `/all/` and,
when the query binds `q`, the re-encoded `q=<value>` pair; otherwise
raises `ValueError`, modelled as `Except.error`. -/
def parse_category_path (url : String) : Except String (String × Option String) :=
  let pq := urlPathQuery url.toList
  if List.isPrefixOf urlBaseHttps.toList url.toList ||
      List.isPrefixOf urlBaseHttp.toList url.toList then
    let category := (pq.1.drop 5).asString
    match parse_qs_first pq.2 ['q'] with
    | some v => .ok (category, some (urlencode_q v).asString)
    | none => .ok (category, none)
  else
    .error ("URL must start with https://www.avito.ru/all/  — got: " ++ url)

/-! ## Extractor (`EXTRACT_ADS_JS` lines 237-277, `extract_ads` lines 280-302)

The in-page script is embedded over an abstract DOM view: a listing item
exposes its optional title link, its `innerText`, and its inner `<a>`
elements in DOM order. -/

/-- An `<a>` element as the extraction script reads it. -/
structure DomLink where
  href : String
  textContent : String
deriving DecidableEq

/-- One `[data-marker="item"]` element as the extraction script reads it. -/
structure DomItem where
  titleLink : Option DomLink
  innerText : String
  links : List DomLink
deriving DecidableEq

/-- The record assembled per item by `EXTRACT_ADS_JS`. -/
structure RawAd where
  ad_position : Nat
  ad_title : String
  ad_url : String
  ad_is_reklama : Bool
  seller_name : String
  seller_url : String
deriving DecidableEq

/-- JS `s.split('?')[0]`: the part of `s` before the first `?`. -/
def beforeQuery (s : String) : String := (splitAtFirst s.toList '?').1.asString

/-- JS `String.prototype.trim` (ASCII/Unicode whitespace at both ends;
`String.trim` covers the whitespace the listings contain). -/
def jsTrim (s : String) : String := s.trim

/-- A character of the regex class `[\d.,]`. -/
def isRatingChar (c : Char) : Bool := c.isDigit || c = '.' || c = ','

/-- A character the regex `.` does not match (JS, no `s` flag). -/
def isJsNewline (c : Char) : Bool :=
  c = '\n' || c = '\r' || c.toNat = 0x2028 || c.toNat = 0x2029

/-- Does `/[\d.,]+·.*$/` match starting at the head of `l`?  It does iff
some non-empty run of `[\d.,]` characters is followed by `·` and the
remainder contains no line terminator. -/
def ratingMatchHere (l : List Char) : Bool :=
  (List.range l.length).any fun len =>
    0 < len &&
      ((l.take len).all isRatingChar) &&
      (l.drop len).head? == some '·' &&
      ((l.drop (len + 1)).all fun c => !isJsNewline c)

/-- JS `s.replace(/[\d.,]+·.*$/, '')`: delete from the leftmost match
position (which extends to the end of the string) onward. -/
def stripRatingTail (s : String) : String :=
  let l := s.toList
  match (List.range l.length).find? fun i => ratingMatchHere (l.drop i) with
  | some i => (l.take i).asString
  | none => s

/-- Seller-name cleaning in `EXTRACT_ADS_JS`:
`a.textContent.trim().replace(/[\d.,]+·.*$/, '').trim()`. -/
def cleanSellerName (s : String) : String :=
  jsTrim (stripRatingTail (jsTrim s))

/-- The first inner link whose (truthy) `href` contains the seller
tracking marker `src=search_seller_info`. -/
def findSellerLink (links : List DomLink) : Option DomLink :=
  links.find? fun a =>
    a.href != "" && strContains "src=search_seller_info" a.href

/-- The record `EXTRACT_ADS_JS` pushes for the item at 0-based `index`. -/
def mkRawAd (index : Nat) (item : DomItem) : RawAd :=
  let adTitle := match item.titleLink with
    | some l => jsTrim l.textContent
    | none => ""
  let adUrl := match item.titleLink with
    | some l => beforeQuery l.href
    | none => ""
  let seller := findSellerLink item.links
  { ad_position := index + 1
    ad_title := adTitle
    ad_url := adUrl
    ad_is_reklama := strContains "Реклама" item.innerText
    seller_name := match seller with
      | some a => cleanSellerName a.textContent
      | none => ""
    seller_url := match seller with
      | some a => beforeQuery a.href
      | none => "" }

/-- The `items.forEach((item, index) => ...)` loop of `EXTRACT_ADS_JS`,
carrying the running index. -/
def extractAdsFrom (index : Nat) : List DomItem → List RawAd
  | [] => []
  | item :: rest => mkRawAd index item :: extractAdsFrom (index + 1) rest

/-- The script `EXTRACT_ADS_JS` applied to the container's items in DOM order (the
script returns `null` when the container is absent; that case is handled
by `extract_ads` below). -/
def extractAdsJs (items : List DomItem) : List RawAd := extractAdsFrom 0 items

/-- Function `extract_ads` (main.py lines 280-302): `none` when the
`catalog-serp` container never appears within `selector_timeout`
(`wait_for_selector` raises) or when the in-page script returns `null`
(container gone by evaluation time); otherwise the extracted records.
The smooth-scroll actions and the debug-HTML capture have no effect on
the returned records and are dropped. -/
def extract_ads (selectorFound : Bool) (domAtEval : Option (List DomItem)) :
    Option (List RawAd) :=
  if !selectorFound then none
  else
    match domAtEval with
    | none => none
    | some items => some (extractAdsJs items)

/-! ## Persistence sink (`save_results`, main.py lines 128-153)

`save_results` rewrites a CSV file (fixed field list, extra dict keys
ignored) and a JSON file (records minus the keys starting with `_`) from
the full cumulative record list — unless the list is empty, in which
case it returns before writing anything.  The artifact contents are
modelled as the two projected row lists. -/

/-- A fully stamped record as the orchestrator stores it: the extracted
fragment plus `city`, `is_mine` and `_run_ts` (main.py lines 381-384). -/
structure AdRecord where
  ad_position : Nat
  ad_title : String
  ad_url : String
  ad_is_reklama : Bool
  seller_name : String
  seller_url : String
  city : String
  is_mine : Bool
  run_ts : String
deriving DecidableEq

/-- Stamping of one extracted fragment (main.py lines 381-384). -/
def stampAd (city run_ts : String) (keywords : List (List String))
    (a : RawAd) : AdRecord :=
  { ad_position := a.ad_position, ad_title := a.ad_title,
    ad_url := a.ad_url, ad_is_reklama := a.ad_is_reklama,
    seller_name := a.seller_name, seller_url := a.seller_url,
    city := city, is_mine := is_mine a.ad_title keywords, run_ts := run_ts }

/-- One CSV row, fields in the `fieldnames` order of `save_results`
(`extrasaction="ignore"` drops the other dict keys). -/
structure CsvRow where
  city : String
  ad_position : Nat
  ad_title : String
  ad_url : String
  ad_is_reklama : Bool
  is_mine : Bool
  seller_name : String
  seller_url : String
deriving DecidableEq

/-- The CSV projection of a record. -/
def toCsvRow (r : AdRecord) : CsvRow :=
  { city := r.city, ad_position := r.ad_position, ad_title := r.ad_title,
    ad_url := r.ad_url, ad_is_reklama := r.ad_is_reklama,
    is_mine := r.is_mine, seller_name := r.seller_name,
    seller_url := r.seller_url }

/-- One JSON record: every dict key not starting with `_`, so everything
except `_run_ts`, in dict insertion order. -/
structure JsonRec where
  ad_position : Nat
  ad_title : String
  ad_url : String
  ad_is_reklama : Bool
  seller_name : String
  seller_url : String
  city : String
  is_mine : Bool
deriving DecidableEq

/-- The JSON projection of a record. -/
def toJsonRec (r : AdRecord) : JsonRec :=
  { ad_position := r.ad_position, ad_title := r.ad_title,
    ad_url := r.ad_url, ad_is_reklama := r.ad_is_reklama,
    seller_name := r.seller_name, seller_url := r.seller_url,
    city := r.city, is_mine := r.is_mine }

/-- The contents written to the two output files by one flush. -/
structure Artifact where
  csvRows : List CsvRow
  jsonRecs : List JsonRec
deriving DecidableEq

/-- The artifact contents corresponding to a record list: the CSV rows
and the cleaned JSON records, both projected from the full list. -/
def artifactOf (results : List AdRecord) : Artifact :=
  { csvRows := results.map toCsvRow, jsonRecs := results.map toJsonRec }

/-- Function `save_results` (main.py lines 128-153): `none` models the early
`return` on an empty list (no file touched); otherwise both files are
rewritten in full from `results`. -/
def save_results (results : List AdRecord) : Option Artifact :=
  if results.isEmpty then none
  else some (artifactOf results)

/-- The on-disk artifact after a `save_results` call, given what was on
disk before (an empty-list call leaves the previous contents). -/
def saveTo (old : Option Artifact) (results : List AdRecord) :
    Option Artifact :=
  match save_results results with
  | some a => some a
  | none => old

/-! ## Scan orchestrator (`run`, main.py lines 326-437)

The loop is interpreted over an `Env` describing, per city and per
attempt, what the network-bound steps yield, and whether the shutdown
flag is set when the loop top reads it.  Sleeps are recorded as actions
carrying the bounds handed to `random.uniform`. -/

/-- The observable effects of a run, in order. -/
inductive Action where
  | navigate (city : String) (attempt : Nat)
  | sleepUniform (lo hi : Nat)
  | save (records : List AdRecord)
  | finalSave (records : List AdRecord)
  | browserClose
deriving DecidableEq

/-- What one navigation attempt for one city runs into. -/
inductive NavOutcome where
  | navError
  | captcha
  | extractFail
  | ok (ads : List RawAd)
deriving DecidableEq

/-- The run's environment: per 1-based city index and 0-based attempt
number the attempt outcome; per 1-based city index the value of the
shutdown flag when the loop top reads it; whether the cookie warm-up
navigation raises. -/
structure Env where
  nav : Nat → Nat → NavOutcome
  shutdown : Nat → Bool
  warmupFails : Bool

/-- The orchestrator's mutable state: cumulative records
(`collected_results`), the on-disk artifact, the consecutive-failure
counter, and the recorded actions. -/
structure St where
  results : List AdRecord
  artifact : Option Artifact
  consecutiveErrors : Nat
  trace : List Action
deriving DecidableEq

/-- The per-city retry loop `for attempt in range(cfg["max_retries"] + 1)`
(main.py lines 360-412): navigate; on captcha sleep 60-120s and consume
the attempt; on a navigation or extraction failure back off 10-20s; on
success stamp the records, extend the cumulative list, call
`save_results` with it, zero the consecutive-failure counter and break.
Returns the new state and the `success` flag. -/
def attemptLoop (nav : Nat → NavOutcome) (keywords : List (List String))
    (city run_ts : String) : Nat → Nat → St → St × Bool
  | 0, _, st => (st, false)
  | fuel + 1, attempt, st =>
    let st := { st with trace := st.trace ++ [Action.navigate city attempt] }
    match nav attempt with
    | .captcha =>
      attemptLoop nav keywords city run_ts fuel (attempt + 1)
        { st with trace := st.trace ++ [Action.sleepUniform 60 120] }
    | .navError =>
      attemptLoop nav keywords city run_ts fuel (attempt + 1)
        { st with trace := st.trace ++ [Action.sleepUniform 10 20] }
    | .extractFail =>
      attemptLoop nav keywords city run_ts fuel (attempt + 1)
        { st with trace := st.trace ++ [Action.sleepUniform 10 20] }
    | .ok ads =>
      let recs := ads.map (stampAd city run_ts keywords)
      let results := st.results ++ recs
      ({ results := results,
         artifact := saveTo st.artifact results,
         consecutiveErrors := 0,
         trace := st.trace ++ [Action.save results] }, true)

/-- The run's typed configuration: the recognized keys of `load_config`,
as the dict produced by it is read inside `run`. -/
structure Config where
  headless : Bool
  min_delay : Nat
  max_delay : Nat
  long_pause_every : Nat
  long_pause_min : Nat
  long_pause_max : Nat
  page_timeout : Nat
  selector_timeout : Nat
  max_retries : Nat
deriving DecidableEq

/-- The inter-city delay chosen at main.py lines 422-427 for the 1-based
city index `i` (meaningful only when `long_pause_every ≠ 0`; the zero
case raises and is handled by the caller). -/
def interDelay (cfg : Config) (i : Nat) : Action :=
  if i % cfg.long_pause_every = 0 then
    .sleepUniform cfg.long_pause_min cfg.long_pause_max
  else
    .sleepUniform cfg.min_delay cfg.max_delay

/-- How a run ends. -/
inductive RunExit where
  | noCities
  | exception
  | normal
  | cancelled
  | earlyAbort
deriving DecidableEq

/-- The `for i, city in enumerate(cities, start=1)` loop of `run`
(main.py lines 352-427): check the shutdown flag; run the retry loop; on
exhaustion bump the consecutive-failure counter and abort at 5; then
sleep the inter-city delay — a `long_pause_every` of `0` makes
`i % cfg["long_pause_every"]` raise `ZeroDivisionError`, which escapes
the loop (`RunExit.exception`). -/
def cityLoop (cfg : Config) (env : Env) (keywords : List (List String))
    (run_ts : String) : Nat → List String → St → St × RunExit
  | _, [], st => (st, .normal)
  | i, city :: rest, st =>
    if env.shutdown i then (st, .cancelled)
    else
      let r := attemptLoop (env.nav i) keywords city run_ts
        (cfg.max_retries + 1) 0 st
      let st2 := if r.2 then r.1
        else { r.1 with consecutiveErrors := r.1.consecutiveErrors + 1 }
      if r.2 = false ∧ 5 ≤ st2.consecutiveErrors then (st2, .earlyAbort)
      else if cfg.long_pause_every = 0 then (st2, .exception)
      else
        cityLoop cfg env keywords run_ts (i + 1) rest
          { st2 with trace := st2.trace ++ [interDelay cfg i] }

/-- The orchestrator's initial state (`collected_results = []`, counter
zero, nothing yet persisted). -/
def stEmpty : St :=
  { results := [], artifact := none, consecutiveErrors := 0, trace := [] }

/-- The outcome of one whole run. -/
structure RunResult where
  results : List AdRecord
  artifact : Option Artifact
  trace : List Action
  exit : RunExit
deriving DecidableEq

/-- Function `run` (main.py lines 326-437): apply the skip offset; return at once
when no cities remain; open the browser; warm cookies (a failure there
escapes the `try`, so only the `finally` browser close runs); iterate the
city loop; close the browser on every path out of the `try`; and — only
when no exception is propagating — call `save_results` once more with the
cumulative list (main.py line 435). -/
def runModel (cfg : Config) (env : Env) (keywords : List (List String))
    (run_ts : String) (cities0 : List String) (skip : Nat) : RunResult :=
  let cities := if skip > 0 then cities0.drop skip else cities0
  if cities.isEmpty then
    { results := [], artifact := none, trace := [], exit := .noCities }
  else if env.warmupFails then
    { results := [], artifact := none, trace := [.browserClose],
      exit := .exception }
  else
    let r := cityLoop cfg env keywords run_ts 1 cities stEmpty
    match r.2 with
    | .exception =>
      { results := r.1.results, artifact := r.1.artifact,
        trace := r.1.trace ++ [.browserClose], exit := .exception }
    | e =>
      { results := r.1.results,
        artifact := saveTo r.1.artifact r.1.results,
        trace := r.1.trace ++ [.browserClose, .finalSave r.1.results],
        exit := e }

/-! ## Statement helpers and concrete fixtures -/

/-- Did the computation succeed (`Except.ok`)? -/
def exceptOk {ε α : Type} : Except ε α → Bool
  | .ok _ => true
  | .error _ => false

deriving instance DecidableEq for Except

/-- Is this action a navigation (`page.goto`)? -/
def isNavAct : Action → Bool
  | .navigate _ _ => true
  | _ => false

/-- Number of navigation attempts recorded in a trace. -/
def navCount (tr : List Action) : Nat := tr.countP fun a => isNavAct a

/-- Number of captcha pauses (the 60-120s sleeps) recorded in a trace. -/
def capSleepCount (tr : List Action) : Nat :=
  tr.countP fun a => a == Action.sleepUniform 60 120

/-- Is this action the end-of-run `save_results` call? -/
def isFinalSaveAct : Action → Bool
  | .finalSave _ => true
  | _ => false

/-- Did this attempt succeed (extraction returned records)? -/
def isOkOutcome : NavOutcome → Bool
  | .ok _ => true
  | _ => false

/-- Was this attempt's outcome a detected block? -/
def isCaptchaOutcome : NavOutcome → Bool
  | .captcha => true
  | _ => false

/-- The state right after the per-city retry envelope, including the
consecutive-failure increment of main.py line 415, together with the
`success` flag. -/
def postAttempt (cfg : Config) (env : Env) (keywords : List (List String))
    (run_ts : String) (i : Nat) (city : String) (st : St) : St × Bool :=
  let r := attemptLoop (env.nav i) keywords city run_ts
    (cfg.max_retries + 1) 0 st
  (if r.2 then r.1
   else { r.1 with consecutiveErrors := r.1.consecutiveErrors + 1 }, r.2)

/-- The run configuration holding exactly the source defaults. -/
def cfgRun : Config :=
  { headless := true, min_delay := 3, max_delay := 12,
    long_pause_every := 25, long_pause_min := 15, long_pause_max := 30,
    page_timeout := 30000, selector_timeout := 10000, max_retries := 2 }

/-- The defaults with an explicitly supplied `long_pause_every` of `0`
(which `load_config` preserves). -/
def cfgZeroPause : Config := { cfgRun with long_pause_every := 0 }

/-- Environment where every attempt succeeds with zero extracted records
and no shutdown is ever requested. -/
def envOkEmpty : Env :=
  { nav := fun _ _ => .ok [], shutdown := fun _ => false,
    warmupFails := false }

/-- Environment where the shutdown flag is observed set from the second
loop iteration on (the interrupt arrives while city 1 is processed). -/
def envShutdownSecond : Env :=
  { envOkEmpty with shutdown := fun i => decide (2 ≤ i) }

/-- Environment where every first attempt hits a captcha and every later
attempt hits a navigation error: no target ever succeeds. -/
def envAllFail : Env :=
  { envOkEmpty with nav := fun _ k => if k = 0 then .captcha else .navError }

/-- A sample extracted fragment. -/
def demoRaw : RawAd :=
  { ad_position := 1, ad_title := "Ремонт телефонов",
    ad_url := "https://www.avito.ru/i/1", ad_is_reklama := false,
    seller_name := "", seller_url := "" }

/-- Environment where every attempt succeeds with one record. -/
def envOkOne : Env := { envOkEmpty with nav := fun _ _ => .ok [demoRaw] }

/-- A sample title link. -/
def demoLink1 : DomLink :=
  { href := "https://www.avito.ru/i/1?slocation=1",
    textContent := " Ремонт телефонов " }

/-- A sample seller link. -/
def demoLink2 : DomLink :=
  { href := "https://www.avito.ru/user/u?src=search_seller_info",
    textContent := "Мастер 4,9·12 отзывов" }

/-- A sample listing item with a title link. -/
def demoItem1 : DomItem :=
  { titleLink := some demoLink1, innerText := "Ремонт телефонов",
    links := [] }

/-- A sample sponsored listing item without a title link. -/
def demoItem2 : DomItem :=
  { titleLink := none, innerText := "Реклама", links := [demoLink2] }

/-- A state with four consecutive failures already accumulated. -/
def stCE4 : St := { stEmpty with consecutiveErrors := 4 }

/-! ## Theorems -/

theorem listContains_iff (n h : List Char) :
    listContains n h = true ↔ n <:+: h := by
  induction h with
  | nil => simp [listContains]
  | cons c t ih => simp [listContains, List.infix_cons_iff, ih]

/-- C3: `is_mine(T, R)` is true iff at least one OR-group of `R` has every
one of its words contained case-insensitively as a substring of `T`.  The
embedding is a total Lean function, witnessing purity/totality. -/
theorem is_mine_iff_group_match (title : String) (groups : List (List String)) :
    is_mine title groups = true ↔
      ∃ g ∈ groups, ∀ w ∈ g, (pyLower w).toList <:+: (pyLower title).toList := by
  simp [is_mine, strContains, listContains_iff]

theorem stampAd_no_keywords (city ts : String) (a : RawAd) :
    (stampAd city ts [] a).is_mine = false := rfl

theorem attemptLoop_no_keywords (nav : Nat → NavOutcome) (city ts : String) :
    ∀ (fuel attempt : Nat) (st : St),
      (st.results.all fun r => !r.is_mine) = true →
      (((attemptLoop nav [] city ts fuel attempt st).1.results).all
        fun r => !r.is_mine) = true := by
  intro fuel
  induction fuel with
  | zero => intro attempt st h; exact h
  | succ f ih =>
    intro attempt st h
    simp only [attemptLoop]
    cases nav attempt with
    | captcha => exact ih _ _ h
    | navError => exact ih _ _ h
    | extractFail => exact ih _ _ h
    | ok ads =>
      simp only [List.all_append, h, Bool.true_and, List.all_eq_true]
      intro r hr
      rcases List.mem_map.1 hr with ⟨a, _, rfl⟩
      simp [stampAd_no_keywords]

theorem cityLoop_no_keywords (cfg : Config) (env : Env) (ts : String) :
    ∀ (cities : List String) (i : Nat) (st : St),
      (st.results.all fun r => !r.is_mine) = true →
      (((cityLoop cfg env [] ts i cities st).1.results).all
        fun r => !r.is_mine) = true := by
  intro cities
  induction cities with
  | nil => intro i st h; exact h
  | cons city rest ih =>
    intro i st h
    have h1 := attemptLoop_no_keywords (env.nav i) city ts
      (cfg.max_retries + 1) 0 st h
    simp only [cityLoop]
    split
    · exact h
    · repeat' split
      all_goals first | exact h1 | exact ih _ _ h1

/-- C10: with an empty keyword rule list the matcher returns false on
every title, and consequently no record of any run with no keyword rules
is classified as a match. -/
theorem no_keyword_rules_no_match :
    (∀ title, is_mine title [] = false) ∧
    (∀ (cfg : Config) (env : Env) (run_ts : String) (cities : List String)
      (skip : Nat),
      (((runModel cfg env [] run_ts cities skip).results).all
        fun r => !r.is_mine) = true) := by
  refine ⟨fun _ => rfl, ?_⟩
  intro cfg env run_ts cities skip
  simp only [runModel]
  generalize (if skip > 0 then cities.drop skip else cities) = cs
  split
  · rfl
  · split
    · rfl
    · have h := cityLoop_no_keywords cfg env run_ts cs 1 stEmpty rfl
      split <;> simpa [stEmpty] using h

theorem setdefault_lookup_some {c : List (String × JVal)} {k : String}
    {v : JVal} (h : List.lookup k c = some v) (k' : String) (v' : JVal) :
    List.lookup k (setdefault c k' v') = some v := by
  unfold setdefault
  cases hl : List.lookup k' c with
  | some _ => exact h
  | none => simp [List.lookup_append, h]

theorem foldl_setdefault_some {k : String} {v : JVal} :
    ∀ (ds : List (String × JVal)) (c : List (String × JVal)),
      List.lookup k c = some v →
      List.lookup k (ds.foldl (fun c kv => setdefault c kv.1 kv.2) c) = some v := by
  intro ds
  induction ds with
  | nil => intro c h; exact h
  | cons kv rest ih =>
    intro c h
    exact ih _ (setdefault_lookup_some h kv.1 kv.2)

theorem setdefault_lookup_none_ne {c : List (String × JVal)} {k k' : String}
    (hne : k ≠ k') (h : List.lookup k c = none) (v' : JVal) :
    List.lookup k (setdefault c k' v') = none := by
  unfold setdefault
  cases hl : List.lookup k' c with
  | some _ => exact h
  | none =>
    simp [List.lookup_append, h, List.lookup_cons]
    simp [show (k == k') = false from beq_eq_false_iff_ne.2 hne]

theorem setdefault_lookup_none_eq {c : List (String × JVal)} {k : String}
    (h : List.lookup k c = none) (v : JVal) :
    List.lookup k (setdefault c k v) = some v := by
  unfold setdefault
  rw [h]
  simp [List.lookup_append, h, List.lookup_cons]

theorem foldl_setdefault_mem {k : String} {d : JVal} :
    ∀ (ds : List (String × JVal)) (c : List (String × JVal)),
      (k, d) ∈ ds → (ds.map Prod.fst).Nodup →
      List.lookup k c = none →
      List.lookup k (ds.foldl (fun c kv => setdefault c kv.1 kv.2) c) = some d := by
  intro ds
  induction ds with
  | nil => intro c hmem; cases hmem
  | cons kv rest ih =>
    intro c hmem hnd hc
    rcases List.mem_cons.1 hmem with heq | htail
    · cases heq
      exact foldl_setdefault_some rest (setdefault c k d)
        (setdefault_lookup_none_eq hc d)
    · have hne : k ≠ kv.1 := by
        intro hk
        have : k ∈ rest.map Prod.fst :=
          List.mem_map.2 ⟨(k, d), htail, rfl⟩
        simp only [List.map_cons, List.nodup_cons] at hnd
        exact hnd.1 (hk ▸ this)
      exact ih _ htail (by
          simp only [List.map_cons, List.nodup_cons] at hnd
          exact hnd.2)
        (setdefault_lookup_none_ne hne hc kv.2)

/-- C5: `load_config` is a per-key defaulting merge: every explicitly
supplied value of a recognized key — falsy values included, since the
statement quantifies over all `JVal`s — is preserved, and the default is
used exactly when the key is absent. -/
theorem load_config_defaulting (cfg : List (String × JVal)) (k : String)
    (d : JVal) (hd : (k, d) ∈ config_defaults) :
    (∀ v, List.lookup k cfg = some v →
      List.lookup k (load_config cfg) = some v) ∧
    (List.lookup k cfg = none →
      List.lookup k (load_config cfg) = some d) := by
  constructor
  · intro v hv
    exact foldl_setdefault_some _ _ hv
  · intro hn
    exact foldl_setdefault_mem _ _ hd (by decide) hn

/-- Witness for C5 at a concrete config: explicitly supplied
`headless = false` (a falsy value) survives the merge, and the absent
`min_delay` gets its default. -/
theorem load_config_defaulting_witness :
    List.lookup "headless"
        (load_config [("headless", JVal.b false), ("max_retries", JVal.n 0)]) =
      some (JVal.b false) ∧
    List.lookup "min_delay"
        (load_config [("headless", JVal.b false), ("max_retries", JVal.n 0)]) =
      some (JVal.n 3) :=
  ⟨(load_config_defaulting [("headless", JVal.b false), ("max_retries", JVal.n 0)]
      "headless" (JVal.b true) (by decide)).1 (JVal.b false) (by decide),
   (load_config_defaulting [("headless", JVal.b false), ("max_retries", JVal.n 0)]
      "min_delay" (JVal.n 3) (by decide)).2 (by decide)⟩

theorem extractAdsFrom_positions :
    ∀ (items : List DomItem) (i : Nat),
      (extractAdsFrom i items).map (fun a => a.ad_position) =
        List.range' (i + 1) items.length := by
  intro items
  induction items with
  | nil => intro i; rfl
  | cons item rest ih =>
    intro i
    simp only [extractAdsFrom, List.map_cons, List.length_cons,
      List.range'_succ, ih (i + 1)]
    rfl

theorem extractAdsFrom_length (items : List DomItem) (i : Nat) :
    (extractAdsFrom i items).length = items.length := by
  have h := congrArg List.length (extractAdsFrom_positions items i)
  simpa using h

/-- C8: whenever extraction succeeds with `N` records, their positions are
exactly `1..N` in item DOM order — no gaps, no duplicates. -/
theorem extraction_positions (selectorFound : Bool)
    (dom : Option (List DomItem)) (ads : List RawAd)
    (h : extract_ads selectorFound dom = some ads) :
    ads.map (fun a => a.ad_position) = List.range' 1 ads.length ∧
    (ads.map fun a => a.ad_position).Nodup := by
  unfold extract_ads at h
  cases selectorFound with
  | false => simp at h
  | true =>
    cases dom with
    | none => simp at h
    | some items =>
      simp only [Bool.not_true, Bool.false_eq_true, if_false] at h
      cases h
      have hlen := extractAdsFrom_length items 0
      have hpos := extractAdsFrom_positions items 0
      constructor
      · rw [extractAdsJs, hpos, hlen]
      · rw [extractAdsJs, hpos]
        exact List.nodup_range' _ _

/-- Witness for C8: a concrete two-item page yields positions `[1, 2]`. -/
theorem extraction_positions_witness :
    (extractAdsJs [demoItem1, demoItem2]).map (fun a => a.ad_position) =
      List.range' 1 (extractAdsJs [demoItem1, demoItem2]).length :=
  (extraction_positions true (some [demoItem1, demoItem2])
    (extractAdsJs [demoItem1, demoItem2]) rfl).1

theorem navCount_append (t1 t2 : List Action) :
    navCount (t1 ++ t2) = navCount t1 + navCount t2 := by
  simp [navCount, List.countP_append]

theorem capSleepCount_append (t1 t2 : List Action) :
    capSleepCount (t1 ++ t2) = capSleepCount t1 + capSleepCount t2 := by
  simp [capSleepCount, List.countP_append]

theorem attemptLoop_nav_le (nav : Nat → NavOutcome)
    (keywords : List (List String)) (city ts : String) :
    ∀ (fuel attempt : Nat) (st : St),
      navCount ((attemptLoop nav keywords city ts fuel attempt st).1.trace) ≤
        navCount st.trace + fuel := by
  intro fuel
  induction fuel with
  | zero => intro attempt st; simp [attemptLoop]
  | succ f ih =>
    intro attempt st
    simp only [attemptLoop]
    cases nav attempt with
    | captcha =>
      have h := ih (attempt + 1)
        { st with trace := st.trace ++ [Action.navigate city attempt] ++
            [Action.sleepUniform 60 120] }
      simp only [navCount_append] at h ⊢
      have e1 : navCount [Action.navigate city attempt] = 1 := rfl
      have e2 : navCount [Action.sleepUniform 60 120] = 0 := rfl
      omega
    | navError =>
      have h := ih (attempt + 1)
        { st with trace := st.trace ++ [Action.navigate city attempt] ++
            [Action.sleepUniform 10 20] }
      simp only [navCount_append] at h ⊢
      have e1 : navCount [Action.navigate city attempt] = 1 := rfl
      have e2 : navCount [Action.sleepUniform 10 20] = 0 := rfl
      omega
    | extractFail =>
      have h := ih (attempt + 1)
        { st with trace := st.trace ++ [Action.navigate city attempt] ++
            [Action.sleepUniform 10 20] }
      simp only [navCount_append] at h ⊢
      have e1 : navCount [Action.navigate city attempt] = 1 := rfl
      have e2 : navCount [Action.sleepUniform 10 20] = 0 := rfl
      omega
    | ok ads =>
      simp only [navCount_append]
      have e1 : navCount [Action.navigate city attempt] = 1 := rfl
      have e2 : ∀ rs, navCount [Action.save rs] = 0 := fun _ => rfl
      simp only [e1, e2]
      omega

theorem attemptLoop_all_fail (nav : Nat → NavOutcome)
    (keywords : List (List String)) (city ts : String)
    (hfail : ∀ k, isOkOutcome (nav k) = false) :
    ∀ (fuel attempt : Nat) (st : St),
      navCount ((attemptLoop nav keywords city ts fuel attempt st).1.trace) =
        navCount st.trace + fuel ∧
      (attemptLoop nav keywords city ts fuel attempt st).2 = false ∧
      capSleepCount ((attemptLoop nav keywords city ts fuel attempt st).1.trace) =
        capSleepCount st.trace +
          ((List.range' attempt fuel).countP fun k => isCaptchaOutcome (nav k)) := by
  intro fuel
  induction fuel with
  | zero => intro attempt st; simp [attemptLoop, List.range']
  | succ f ih =>
    intro attempt st
    simp only [attemptLoop]
    cases hnav : nav attempt with
    | ok ads => have := hfail attempt; rw [hnav] at this; simp [isOkOutcome] at this
    | captcha =>
      have h := ih (attempt + 1)
        { st with trace := st.trace ++ [Action.navigate city attempt] ++
            [Action.sleepUniform 60 120] }
      simp only [navCount_append, capSleepCount_append] at h ⊢
      have e1 : navCount [Action.navigate city attempt] = 1 := rfl
      have e2 : navCount [Action.sleepUniform 60 120] = 0 := rfl
      have e3 : capSleepCount [Action.navigate city attempt] = 0 := rfl
      have e4 : capSleepCount [Action.sleepUniform 60 120] = 1 := rfl
      have e5 : (List.range' attempt (f + 1)).countP
            (fun k => isCaptchaOutcome (nav k)) =
          ((List.range' (attempt + 1) f).countP
            fun k => isCaptchaOutcome (nav k)) + 1 := by
        rw [List.range'_succ, List.countP_cons]
        simp [hnav, isCaptchaOutcome]
      refine ⟨by omega, h.2.1, by omega⟩
    | navError =>
      have h := ih (attempt + 1)
        { st with trace := st.trace ++ [Action.navigate city attempt] ++
            [Action.sleepUniform 10 20] }
      simp only [navCount_append, capSleepCount_append] at h ⊢
      have e1 : navCount [Action.navigate city attempt] = 1 := rfl
      have e2 : navCount [Action.sleepUniform 10 20] = 0 := rfl
      have e3 : capSleepCount [Action.navigate city attempt] = 0 := rfl
      have e4 : capSleepCount [Action.sleepUniform 10 20] = 0 := rfl
      have e5 : (List.range' attempt (f + 1)).countP
            (fun k => isCaptchaOutcome (nav k)) =
          (List.range' (attempt + 1) f).countP
            fun k => isCaptchaOutcome (nav k) := by
        rw [List.range'_succ, List.countP_cons]
        simp [hnav, isCaptchaOutcome]
      refine ⟨by omega, h.2.1, by omega⟩
    | extractFail =>
      have h := ih (attempt + 1)
        { st with trace := st.trace ++ [Action.navigate city attempt] ++
            [Action.sleepUniform 10 20] }
      simp only [navCount_append, capSleepCount_append] at h ⊢
      have e1 : navCount [Action.navigate city attempt] = 1 := rfl
      have e2 : navCount [Action.sleepUniform 10 20] = 0 := rfl
      have e3 : capSleepCount [Action.navigate city attempt] = 0 := rfl
      have e4 : capSleepCount [Action.sleepUniform 10 20] = 0 := rfl
      have e5 : (List.range' attempt (f + 1)).countP
            (fun k => isCaptchaOutcome (nav k)) =
          (List.range' (attempt + 1) f).countP
            fun k => isCaptchaOutcome (nav k) := by
        rw [List.range'_succ, List.countP_cons]
        simp [hnav, isCaptchaOutcome]
      refine ⟨by omega, h.2.1, by omega⟩

/-- C2: every target gets at most `max_retries + 1` navigation attempts;
when no attempt succeeds, exactly `max_retries + 1` navigations occur and
the target is marked failed; each detected block adds one 60-120s sleep
while consuming an attempt from the same bounded budget (the navigation
count stays capped whatever mix of blocks and errors occurs). -/
theorem retry_budget_bounded (cfg : Config) (env : Env) (i : Nat)
    (city run_ts : String) (keywords : List (List String)) (st : St) :
    navCount ((attemptLoop (env.nav i) keywords city run_ts
        (cfg.max_retries + 1) 0 st).1.trace) ≤
      navCount st.trace + (cfg.max_retries + 1) ∧
    ((∀ k, isOkOutcome (env.nav i k) = false) →
      navCount ((attemptLoop (env.nav i) keywords city run_ts
          (cfg.max_retries + 1) 0 st).1.trace) =
        navCount st.trace + (cfg.max_retries + 1) ∧
      (attemptLoop (env.nav i) keywords city run_ts
        (cfg.max_retries + 1) 0 st).2 = false ∧
      capSleepCount ((attemptLoop (env.nav i) keywords city run_ts
          (cfg.max_retries + 1) 0 st).1.trace) =
        capSleepCount st.trace +
          ((List.range' 0 (cfg.max_retries + 1)).countP
            fun k => isCaptchaOutcome (env.nav i k))) :=
  ⟨attemptLoop_nav_le (env.nav i) keywords city run_ts (cfg.max_retries + 1) 0 st,
   fun hf => attemptLoop_all_fail (env.nav i) keywords city run_ts hf
     (cfg.max_retries + 1) 0 st⟩

/-- Witness for C2: with the default `max_retries = 2` and every attempt
failing (a captcha first, then navigation errors), exactly 3 navigation
attempts occur, the target is marked failed, and one captcha sleep was
taken from the same budget. -/
theorem retry_budget_bounded_witness :
    navCount ((attemptLoop (envAllFail.nav 1) [] "a" "ts"
        (cfgRun.max_retries + 1) 0 stEmpty).1.trace) =
      navCount stEmpty.trace + (cfgRun.max_retries + 1) ∧
    (attemptLoop (envAllFail.nav 1) [] "a" "ts"
      (cfgRun.max_retries + 1) 0 stEmpty).2 = false := by
  have hf : ∀ k, isOkOutcome (envAllFail.nav 1 k) = false := by
    intro k; cases k <;> rfl
  exact ⟨((retry_budget_bounded cfgRun envAllFail 1 "a" "ts" [] stEmpty).2 hf).1,
    ((retry_budget_bounded cfgRun envAllFail 1 "a" "ts" [] stEmpty).2 hf).2.1⟩

theorem attemptLoop_success_resets (nav : Nat → NavOutcome)
    (keywords : List (List String)) (city ts : String) :
    ∀ (fuel attempt : Nat) (st : St),
      (attemptLoop nav keywords city ts fuel attempt st).2 = true →
      (attemptLoop nav keywords city ts fuel attempt st).1.consecutiveErrors = 0 := by
  intro fuel
  induction fuel with
  | zero => intro attempt st h; exact absurd h (by simp [attemptLoop])
  | succ f ih =>
    intro attempt st h
    simp only [attemptLoop] at h ⊢
    revert h
    cases nav attempt with
    | captcha => exact ih _ _
    | navError => exact ih _ _
    | extractFail => exact ih _ _
    | ok ads => intro _; rfl

theorem attemptLoop_fail_preserves (nav : Nat → NavOutcome)
    (keywords : List (List String)) (city ts : String) :
    ∀ (fuel attempt : Nat) (st : St),
      (attemptLoop nav keywords city ts fuel attempt st).2 = false →
      (attemptLoop nav keywords city ts fuel attempt st).1.consecutiveErrors =
        st.consecutiveErrors := by
  intro fuel
  induction fuel with
  | zero => intro attempt st _; rfl
  | succ f ih =>
    intro attempt st h
    simp only [attemptLoop] at h ⊢
    revert h
    cases nav attempt with
    | captcha => exact ih _ _
    | navError => exact ih _ _
    | extractFail => exact ih _ _
    | ok ads => intro h; simp at h

/-- One unfolding of the city loop at a non-shutdown step, phrased through
`postAttempt`. -/
theorem cityLoop_cons (cfg : Config) (env : Env)
    (keywords : List (List String)) (run_ts : String) (i : Nat)
    (city : String) (rest : List String) (st : St)
    (hns : env.shutdown i = false) :
    cityLoop cfg env keywords run_ts i (city :: rest) st =
      if (postAttempt cfg env keywords run_ts i city st).2 = false ∧
          5 ≤ (postAttempt cfg env keywords run_ts i city st).1.consecutiveErrors then
        ((postAttempt cfg env keywords run_ts i city st).1, RunExit.earlyAbort)
      else if cfg.long_pause_every = 0 then
        ((postAttempt cfg env keywords run_ts i city st).1, RunExit.exception)
      else
        cityLoop cfg env keywords run_ts (i + 1) rest
          { (postAttempt cfg env keywords run_ts i city st).1 with
              trace := (postAttempt cfg env keywords run_ts i city st).1.trace ++
                [interDelay cfg i] } := by
  simp only [cityLoop, postAttempt, hns, Bool.false_eq_true, if_false]

/-- C6: the consecutive-failure counter is reset to 0 by every successful
target and otherwise carried through the retry loop untouched, so the
counter update after a target is exactly `0` on success and `+1` on
exhaustion; and when the incremented counter reaches 5 the loop returns
`earlyAbort` at once, with the state (cumulative records, persisted
artifact) exactly as the failing target left it and no further target
processed. -/
theorem consecutive_failure_policy (cfg : Config) (env : Env)
    (keywords : List (List String)) (run_ts : String) (i : Nat)
    (city : String) (rest : List String) (st : St)
    (hns : env.shutdown i = false) :
    ((attemptLoop (env.nav i) keywords city run_ts
        (cfg.max_retries + 1) 0 st).2 = true →
      (attemptLoop (env.nav i) keywords city run_ts
        (cfg.max_retries + 1) 0 st).1.consecutiveErrors = 0) ∧
    ((attemptLoop (env.nav i) keywords city run_ts
        (cfg.max_retries + 1) 0 st).2 = false →
      (attemptLoop (env.nav i) keywords city run_ts
        (cfg.max_retries + 1) 0 st).1.consecutiveErrors =
        st.consecutiveErrors) ∧
    ((attemptLoop (env.nav i) keywords city run_ts
        (cfg.max_retries + 1) 0 st).2 = false →
      5 ≤ st.consecutiveErrors + 1 →
      cityLoop cfg env keywords run_ts i (city :: rest) st =
        ({ (attemptLoop (env.nav i) keywords city run_ts
              (cfg.max_retries + 1) 0 st).1 with
            consecutiveErrors := st.consecutiveErrors + 1 },
          RunExit.earlyAbort)) := by
  refine ⟨attemptLoop_success_resets _ _ _ _ _ _ _,
    attemptLoop_fail_preserves _ _ _ _ _ _ _, ?_⟩
  intro hfail habove
  have hpres := attemptLoop_fail_preserves (env.nav i) keywords city run_ts
    (cfg.max_retries + 1) 0 st hfail
  rw [cityLoop_cons cfg env keywords run_ts i city rest st hns]
  have hpost1 : (postAttempt cfg env keywords run_ts i city st).1 =
      { (attemptLoop (env.nav i) keywords city run_ts
            (cfg.max_retries + 1) 0 st).1 with
          consecutiveErrors := st.consecutiveErrors + 1 } := by
    simp [postAttempt, hfail, hpres]
  have hpost2 : (postAttempt cfg env keywords run_ts i city st).2 = false := by
    simp [postAttempt, hfail]
  rw [if_pos ⟨hpost2, by rw [hpost1]; simpa using habove⟩, hpost1]

/-- Witness for C6: with four failures already accumulated and a target
that exhausts its attempts, the loop aborts at once with the counter at 5
and the remaining city untouched. -/
theorem consecutive_failure_policy_witness :
    cityLoop cfgRun envAllFail [] "ts" 1 ["a", "b"] stCE4 =
      ({ (attemptLoop (envAllFail.nav 1) [] "a" "ts"
            (cfgRun.max_retries + 1) 0 stCE4).1 with
          consecutiveErrors := stCE4.consecutiveErrors + 1 },
        RunExit.earlyAbort) :=
  (consecutive_failure_policy cfgRun envAllFail [] "ts" 1 "a" ["b"] stCE4
    rfl).2.2 rfl (by decide)

theorem attemptLoop_persists (nav : Nat → NavOutcome)
    (keywords : List (List String)) (city ts : String) :
    ∀ (fuel attempt : Nat) (st : St),
      (attemptLoop nav keywords city ts fuel attempt st).2 = true →
      ((attemptLoop nav keywords city ts fuel attempt st).1.results ≠ [] →
        (attemptLoop nav keywords city ts fuel attempt st).1.artifact =
          some (artifactOf
            (attemptLoop nav keywords city ts fuel attempt st).1.results)) ∧
      ∃ newRecs, (attemptLoop nav keywords city ts fuel attempt st).1.results =
        st.results ++ newRecs := by
  intro fuel
  induction fuel with
  | zero => intro attempt st h; exact absurd h (by simp [attemptLoop])
  | succ f ih =>
    intro attempt st h
    simp only [attemptLoop] at h ⊢
    revert h
    cases nav attempt with
    | captcha => exact ih _ _
    | navError => exact ih _ _
    | extractFail => exact ih _ _
    | ok ads =>
      intro _
      refine ⟨fun hne => ?_, ⟨ads.map (stampAd city ts keywords), rfl⟩⟩
      simp only [saveTo, save_results, artifactOf]
      rw [if_neg (by simpa [List.isEmpty_iff] using hne)]

/-- C7 (amended): after every successful target the sink is invoked with
the full cumulative record list, which extends the previous one; whenever
that cumulative list is nonempty, the on-disk CSV and JSON artifacts are
rewritten in full to exactly its projections.  (The original claim fails
when the cumulative list is empty: `save_results` returns before writing;
see the counterexample.) -/
theorem incremental_persistence (cfg : Config) (env : Env) (i : Nat)
    (city run_ts : String) (keywords : List (List String)) (st : St)
    (hs : (attemptLoop (env.nav i) keywords city run_ts
      (cfg.max_retries + 1) 0 st).2 = true) :
    ((attemptLoop (env.nav i) keywords city run_ts
        (cfg.max_retries + 1) 0 st).1.results ≠ [] →
      (attemptLoop (env.nav i) keywords city run_ts
          (cfg.max_retries + 1) 0 st).1.artifact =
        some (artifactOf (attemptLoop (env.nav i) keywords city run_ts
          (cfg.max_retries + 1) 0 st).1.results)) ∧
    ∃ newRecs, (attemptLoop (env.nav i) keywords city run_ts
        (cfg.max_retries + 1) 0 st).1.results = st.results ++ newRecs :=
  attemptLoop_persists (env.nav i) keywords city run_ts
    (cfg.max_retries + 1) 0 st hs

/-- Witness for C7: a successful target with one record leaves both
artifacts rewritten to exactly the cumulative record's projections. -/
theorem incremental_persistence_witness :
    (attemptLoop (envOkOne.nav 1) [] "a" "ts"
        (cfgRun.max_retries + 1) 0 stEmpty).1.artifact =
      some (artifactOf (attemptLoop (envOkOne.nav 1) [] "a" "ts"
        (cfgRun.max_retries + 1) 0 stEmpty).1.results) :=
  (incremental_persistence cfgRun envOkOne 1 "a" "ts" [] stEmpty rfl).1
    (by decide)

/-- Counterexample to C7 as stated: a run whose first target succeeds
with zero extracted records.  The target is successfully processed (the
sink is invoked — the `save` action is in the trace), yet no artifact is
ever written or rewritten (`artifact = none`): `save_results` returns
before touching the files when the cumulative list is empty. -/
theorem persistence_empty_counterexample :
    runModel cfgRun envOkEmpty [] "ts" ["moskva"] 0 =
      { results := [], artifact := none,
        trace := [Action.navigate "moskva" 0, Action.save [],
          Action.sleepUniform 3 12, Action.browserClose, Action.finalSave []],
        exit := RunExit.normal } := by decide

/-- C9 (amended): the inter-target delay — long bounds when the 1-based
index is a multiple of `long_pause_every`, short bounds otherwise — is
appended after every processed target except when the consecutive-failure
threshold aborts the run; in particular it is not skipped when a
cancellation is pending (the flag is only read before the next target)
nor after the final target. -/
theorem inter_target_delay_policy (cfg : Config) (env : Env)
    (keywords : List (List String)) (run_ts : String) (i : Nat)
    (city : String) (rest : List String) (st : St)
    (hns : env.shutdown i = false) (hlpe : cfg.long_pause_every ≠ 0) :
    interDelay cfg i =
      (if i % cfg.long_pause_every = 0 then
        Action.sleepUniform cfg.long_pause_min cfg.long_pause_max
      else Action.sleepUniform cfg.min_delay cfg.max_delay) ∧
    (¬((postAttempt cfg env keywords run_ts i city st).2 = false ∧
        5 ≤ (postAttempt cfg env keywords run_ts i city st).1.consecutiveErrors) →
      cityLoop cfg env keywords run_ts i (city :: rest) st =
        cityLoop cfg env keywords run_ts (i + 1) rest
          { (postAttempt cfg env keywords run_ts i city st).1 with
              trace := (postAttempt cfg env keywords run_ts i city st).1.trace ++
                [interDelay cfg i] }) ∧
    (((postAttempt cfg env keywords run_ts i city st).2 = false ∧
        5 ≤ (postAttempt cfg env keywords run_ts i city st).1.consecutiveErrors) →
      cityLoop cfg env keywords run_ts i (city :: rest) st =
        ((postAttempt cfg env keywords run_ts i city st).1,
          RunExit.earlyAbort)) := by
  refine ⟨rfl, ?_, ?_⟩
  · intro h
    rw [cityLoop_cons cfg env keywords run_ts i city rest st hns,
      if_neg h, if_neg hlpe]
  · intro h
    rw [cityLoop_cons cfg env keywords run_ts i city rest st hns, if_pos h]

/-- Witness for C9 at index 25 with the default cadence: the long pause is
chosen and appended after the (final) target. -/
theorem inter_target_delay_policy_witness :
    interDelay cfgRun 25 = Action.sleepUniform 15 30 ∧
    cityLoop cfgRun envOkEmpty [] "ts" 25 ["x"] stEmpty =
      cityLoop cfgRun envOkEmpty [] "ts" 26 []
        { (postAttempt cfgRun envOkEmpty [] "ts" 25 "x" stEmpty).1 with
            trace := (postAttempt cfgRun envOkEmpty [] "ts" 25 "x"
              stEmpty).1.trace ++ [interDelay cfgRun 25] } := by
  constructor
  · exact (inter_target_delay_policy cfgRun envOkEmpty [] "ts" 25 "x" []
      stEmpty rfl (by decide)).1.trans (by decide)
  · exact (inter_target_delay_policy cfgRun envOkEmpty [] "ts" 25 "x" []
      stEmpty rfl (by decide)).2.1 (by decide)

/-- Counterexample to C9 as stated: the shutdown flag is set while city
`"a"` is processed (observed from index 2 on).  The run is stopping, yet
the inter-target delay (`sleepUniform 3 12`) is still slept after city
`"a"`, before the flag is read and the loop exits as cancelled; only then
is city `"b"` skipped. -/
theorem delay_not_skipped_counterexample :
    runModel cfgRun envShutdownSecond [] "ts" ["a", "b"] 0 =
      { results := [], artifact := none,
        trace := [Action.navigate "a" 0, Action.save [],
          Action.sleepUniform 3 12, Action.browserClose, Action.finalSave []],
        exit := RunExit.cancelled } := by decide

/-- C1 (amended): on every non-exception termination of a run over a
nonempty target list — normal completion, early abort, or graceful
cancellation — the run ends with the browser close followed by one final
`save_results` call on the cumulative record set.  (The original claim
fails on the exception path: the final flush at main.py line 435 sits
outside the `try/finally`, so an escaping exception skips it; see the
counterexample.) -/
theorem final_flush_on_nonexception (cfg : Config) (env : Env)
    (keywords : List (List String)) (run_ts : String)
    (cities : List String) (skip : Nat)
    (h1 : (runModel cfg env keywords run_ts cities skip).exit ≠
      RunExit.exception)
    (h2 : (runModel cfg env keywords run_ts cities skip).exit ≠
      RunExit.noCities) :
    ∃ t, (runModel cfg env keywords run_ts cities skip).trace =
      t ++ [Action.browserClose,
        Action.finalSave (runModel cfg env keywords run_ts cities skip).results] := by
  by_cases hempty : (if skip > 0 then cities.drop skip else cities).isEmpty
  · exact absurd (by simp [runModel, hempty]) h2
  · by_cases hw : env.warmupFails
    · exact absurd (by simp [runModel, hempty, hw]) h1
    · cases hx : (cityLoop cfg env keywords run_ts 1
          (if skip > 0 then cities.drop skip else cities) stEmpty).2 with
      | exception => exact absurd (by simp [runModel, hempty, hw, hx]) h1
      | noCities => exact ⟨_, by simp [runModel, hempty, hw, hx]; rfl⟩
      | normal => exact ⟨_, by simp [runModel, hempty, hw, hx]; rfl⟩
      | cancelled => exact ⟨_, by simp [runModel, hempty, hw, hx]; rfl⟩
      | earlyAbort => exact ⟨_, by simp [runModel, hempty, hw, hx]; rfl⟩

/-- Witness for C1: a normally completing one-city run ends with the
browser close and the final flush of its cumulative records. -/
theorem final_flush_on_nonexception_witness :
    ∃ t, (runModel cfgRun envOkEmpty [] "ts" ["moskva"] 0).trace =
      t ++ [Action.browserClose,
        Action.finalSave (runModel cfgRun envOkEmpty [] "ts" ["moskva"] 0).results] :=
  final_flush_on_nonexception cfgRun envOkEmpty [] "ts" ["moskva"] 0
    (by decide) (by decide)

/-- Counterexample to C1 as stated: with an explicitly configured
`long_pause_every = 0` (which `load_config` preserves), the inter-city
delay computation `i % cfg["long_pause_every"]` raises
`ZeroDivisionError` after the first target; the exception escapes the
per-target loop, only the `finally` browser close runs, and the run exits
with no final `save_results` call on this termination path. -/
theorem final_flush_counterexample :
    runModel cfgZeroPause envOkEmpty [] "ts" ["moskva"] 0 =
      { results := [], artifact := none,
        trace := [Action.navigate "moskva" 0, Action.save [],
          Action.browserClose],
        exit := RunExit.exception } ∧
    ((runModel cfgZeroPause envOkEmpty [] "ts" ["moskva"] 0).trace.all
      fun a => !isFinalSaveAct a) = true := by decide

theorem toList_asString (l : List Char) : (List.asString l).toList = l := rfl

theorem splitAtFirst_not_mem {l : List Char} {sep : Char} (h : sep ∉ l) :
    splitAtFirst l sep = (l, none) := by
  induction l with
  | nil => rfl
  | cons c rest ih =>
    have hc : c ≠ sep := fun he => h (he ▸ List.mem_cons_self c rest)
    simp only [splitAtFirst, if_neg hc]
    rw [ih fun hm => h (List.mem_cons_of_mem _ hm)]

theorem splitAtFirst_append {xs : List Char} {sep : Char} (ys : List Char)
    (h : sep ∉ xs) :
    splitAtFirst (xs ++ sep :: ys) sep = (xs, some ys) := by
  induction xs with
  | nil => simp [splitAtFirst]
  | cons c rest ih =>
    have hc : c ≠ sep := fun he => h (he ▸ List.mem_cons_self c rest)
    simp only [List.cons_append, splitAtFirst, if_neg hc, List.append_eq]
    rw [ih fun hm => h (List.mem_cons_of_mem _ hm)]

theorem splitOnChar_not_mem {l : List Char} {sep : Char} (h : sep ∉ l) :
    splitOnChar l sep = [l] := by
  induction l with
  | nil => rfl
  | cons c rest ih =>
    have hc : c ≠ sep := fun he => h (he ▸ List.mem_cons_self c rest)
    simp only [splitOnChar, if_neg hc]
    rw [ih fun hm => h (List.mem_cons_of_mem _ hm)]

theorem quoteSafe_lt128 {c : Char} (h : quoteSafe c = true) :
    c.toNat < 128 := by
  simp only [quoteSafe, Bool.or_eq_true, Bool.and_eq_true,
    decide_eq_true_eq] at h
  rcases h with ((((((⟨h1, h2⟩ | ⟨h1, h2⟩) | ⟨h1, h2⟩) | rfl) | rfl) | rfl) | rfl)
  · omega
  · omega
  · omega
  all_goals decide

theorem quoteSafe_ne {c x : Char} (h : quoteSafe c = true)
    (hx : quoteSafe x = false) : c ≠ x := fun he => by
  rw [he, hx] at h; cases h

theorem charUtf8_ascii {c : Char} (h : c.toNat < 128) :
    charUtf8 c = [c.toNat] := by
  simp [charUtf8, h]

theorem utf8DecodeGo_ascii :
    ∀ (fuel : Nat) {bs : List Nat}, bs.length ≤ fuel →
      (∀ b ∈ bs, b < 128) → utf8DecodeGo fuel bs = bs.map Char.ofNat := by
  intro fuel
  induction fuel with
  | zero =>
    intro bs hlen _
    cases bs with
    | nil => rfl
    | cons b rest => simp at hlen
  | succ f ih =>
    intro bs hlen h
    cases bs with
    | nil => rfl
    | cons b rest =>
      have hb : b < 128 := h b (List.mem_cons_self _ _)
      simp only [utf8DecodeGo, if_pos hb, List.map_cons]
      rw [ih (by simp at hlen; omega)
        fun x hx => h x (List.mem_cons_of_mem _ hx)]

theorem utf8Decode_ascii {bs : List Nat} (h : ∀ b ∈ bs, b < 128) :
    utf8Decode bs = bs.map Char.ofNat :=
  utf8DecodeGo_ascii bs.length le_rfl h

theorem pctBytesGo_safe :
    ∀ (fuel : Nat) {l : List Char}, l.length ≤ fuel →
      (∀ c ∈ l, quoteSafe c = true) →
      pctBytesGo fuel l = l.map Char.toNat := by
  intro fuel
  induction fuel with
  | zero =>
    intro l hlen _
    cases l with
    | nil => rfl
    | cons c rest => simp at hlen
  | succ f ih =>
    intro l hlen h
    cases l with
    | nil => rfl
    | cons c rest =>
      have hc := h c (List.mem_cons_self _ _)
      have hcp : c ≠ '%' := quoteSafe_ne hc (by decide)
      simp only [pctBytesGo, if_neg hcp, List.map_cons]
      rw [charUtf8_ascii (quoteSafe_lt128 hc),
        ih (by simp at hlen; omega)
          fun x hx => h x (List.mem_cons_of_mem _ hx)]
      rfl

theorem pctBytes_safe {l : List Char} (h : ∀ c ∈ l, quoteSafe c = true) :
    pctBytes l = l.map Char.toNat :=
  pctBytesGo_safe l.length le_rfl h

theorem map_plus_id {l : List Char} (h : ∀ c ∈ l, quoteSafe c = true) :
    (l.map fun c => if c = '+' then ' ' else c) = l := by
  induction l with
  | nil => rfl
  | cons c rest ih =>
    have hc : c ≠ '+' := quoteSafe_ne (h c (List.mem_cons_self _ _)) (by decide)
    simp only [List.map_cons, if_neg hc]
    rw [ih fun x hx => h x (List.mem_cons_of_mem _ hx)]

theorem unquote_plus_safe {l : List Char} (h : ∀ c ∈ l, quoteSafe c = true) :
    unquote_plus l = l := by
  unfold unquote_plus
  rw [map_plus_id h, pctBytes_safe h,
    utf8Decode_ascii fun b hb => by
      rcases List.mem_map.1 hb with ⟨c, hc, rfl⟩
      exact quoteSafe_lt128 (h c hc)]
  simp [List.map_map, Function.comp_def]

theorem quote_plus_safe :
    ∀ {l : List Char}, (∀ c ∈ l, quoteSafe c = true) → quote_plus l = l := by
  intro l
  induction l with
  | nil => intro _; rfl
  | cons c rest ih =>
    intro h
    have hc := h c (List.mem_cons_self _ _)
    simp only [quote_plus, List.map_cons, List.flatten_cons, if_pos hc]
    exact congrArg (c :: ·) (ih fun x hx => h x (List.mem_cons_of_mem _ hx))

theorem isPrefixOf_append_self (l t : List Char) :
    List.isPrefixOf l (l ++ t) = true := by
  simp

theorem parse_qs_first_nil (key : List Char) :
    parse_qs_first [] key = none := rfl

theorem parse_qs_first_q {q : List Char} (hne : q ≠ [])
    (hsafe : ∀ c ∈ q, quoteSafe c = true) :
    parse_qs_first ('q' :: '=' :: q) ['q'] = some q := by
  have hamp : '&' ∉ 'q' :: '=' :: q := by
    intro hm
    rcases List.mem_cons.1 hm with h | hm
    · exact absurd h (by decide)
    rcases List.mem_cons.1 hm with h | hm
    · exact absurd h (by decide)
    · exact absurd (hsafe '&' hm) (by decide)
  have hq1 : unquote_plus ['q'] = ['q'] := by decide
  have heqq : splitAtFirst ('q' :: '=' :: q) '=' = (['q'], some q) := by
    simp [splitAtFirst]
  simp only [parse_qs_first, splitOnChar_not_mem hamp, List.filterMap_cons,
    heqq]
  rw [if_neg (by simp), if_neg hne]
  simp [List.find?_cons, hq1, unquote_plus_safe hsafe]

theorem urlBaseHttps_eq :
    urlBaseHttps.toList =
      'h' :: 't' :: 't' :: 'p' :: 's' :: ':' :: '/' :: '/' ::
      'w' :: 'w' :: 'w' :: '.' :: 'a' :: 'v' :: 'i' :: 't' :: 'o' ::
      '.' :: 'r' :: 'u' :: '/' :: 'a' :: 'l' :: 'l' :: '/' ::
      ([] : List Char) := rfl

theorem urlPathOf_base (cat : List Char) :
    urlPathOf (urlBaseHttps.toList ++ cat) =
      '/' :: 'a' :: 'l' :: 'l' :: '/' :: cat := by
  rw [urlBaseHttps_eq]
  simp only [List.cons_append, List.nil_append]
  simp [urlPathOf, splitScheme, splitAtFirst, List.isPrefixOf, schemeChar]

theorem quoteSafe_not_unsafe {c : Char} (h : quoteSafe c = true) :
    isUnsafeUrlByte c = false := by
  cases hu : isUnsafeUrlByte c
  · rfl
  · exfalso
    simp only [isUnsafeUrlByte, Bool.or_eq_true, decide_eq_true_eq] at hu
    rcases hu with (rfl | rfl) | rfl <;> exact absurd h (by decide)

theorem cleanUrl_base {tail : List Char}
    (h : ∀ c ∈ tail, isUnsafeUrlByte c = false) :
    cleanUrl (urlBaseHttps.toList ++ tail) = urlBaseHttps.toList ++ tail := by
  have hall : ∀ c ∈ urlBaseHttps.toList ++ tail, isUnsafeUrlByte c = false := by
    intro c hc
    rcases List.mem_append.1 hc with hc | hc
    · have hb : urlBaseHttps.toList.all (fun c => !isUnsafeUrlByte c) = true := by
        decide
      simpa using List.all_eq_true.1 hb c hc
    · exact h c hc
  have hdrop : (urlBaseHttps.toList ++ tail).dropWhile c0ControlOrSpace =
      urlBaseHttps.toList ++ tail := by
    rw [urlBaseHttps_eq]
    simp only [List.cons_append, List.dropWhile_cons]
    rw [if_neg (by decide)]
  unfold cleanUrl
  rw [hdrop]
  exact List.filter_eq_self.mpr fun a ha => by simp [hall a ha]

theorem splitParams_no_semi {path : List Char} (h : ';' ∉ path) :
    splitParams path = path := by
  unfold splitParams
  rw [if_neg h]

theorem urlPathQuery_noquery {cat : List Char} (h1 : '?' ∉ cat)
    (h2 : '#' ∉ cat) (h3 : ';' ∉ cat)
    (h4 : ∀ c ∈ cat, isUnsafeUrlByte c = false) :
    urlPathQuery (urlBaseHttps.toList ++ cat) =
      ('/' :: 'a' :: 'l' :: 'l' :: '/' :: cat, []) := by
  have hh : '#' ∉ urlBaseHttps.toList ++ cat := by
    intro hm
    rcases List.mem_append.1 hm with hm | hm
    · exact absurd hm (by decide)
    · exact h2 hm
  have hq : '?' ∉ urlBaseHttps.toList ++ cat := by
    intro hm
    rcases List.mem_append.1 hm with hm | hm
    · exact absurd hm (by decide)
    · exact h1 hm
  have hsemi : ';' ∉ '/' :: 'a' :: 'l' :: 'l' :: '/' :: cat := by
    intro hm
    simp only [List.mem_cons] at hm
    rcases hm with h | h | h | h | h | h
    · exact absurd h (by decide)
    · exact absurd h (by decide)
    · exact absurd h (by decide)
    · exact absurd h (by decide)
    · exact absurd h (by decide)
    · exact h3 h
  simp only [urlPathQuery, cleanUrl_base h4, splitAtFirst_not_mem hh,
    splitAtFirst_not_mem hq, Option.getD_none]
  rw [urlPathOf_base, splitParams_no_semi hsemi]

theorem urlPathQuery_query {cat qs : List Char} (h1 : '?' ∉ cat)
    (h2 : '#' ∉ cat) (h3 : ';' ∉ cat)
    (h4 : ∀ c ∈ cat, isUnsafeUrlByte c = false)
    (h5 : '#' ∉ qs) (h6 : ∀ c ∈ qs, isUnsafeUrlByte c = false) :
    urlPathQuery (urlBaseHttps.toList ++ cat ++ '?' :: qs) =
      ('/' :: 'a' :: 'l' :: 'l' :: '/' :: cat, qs) := by
  have hctail : ∀ c ∈ cat ++ '?' :: qs, isUnsafeUrlByte c = false := by
    intro c hc
    rcases List.mem_append.1 hc with hc | hc
    · exact h4 c hc
    · rcases List.mem_cons.1 hc with rfl | hc
      · rfl
      · exact h6 c hc
  have hclean : cleanUrl (urlBaseHttps.toList ++ cat ++ '?' :: qs) =
      urlBaseHttps.toList ++ cat ++ '?' :: qs := by
    have h0 := cleanUrl_base hctail
    simpa [List.append_assoc] using h0
  have hh : '#' ∉ (urlBaseHttps.toList ++ cat) ++ '?' :: qs := by
    intro hm
    rcases List.mem_append.1 hm with hm | hm
    · rcases List.mem_append.1 hm with hm | hm
      · exact absurd hm (by decide)
      · exact h2 hm
    · rcases List.mem_cons.1 hm with hm | hm
      · exact absurd hm (by decide)
      · exact h5 hm
  have hq : '?' ∉ urlBaseHttps.toList ++ cat := by
    intro hm
    rcases List.mem_append.1 hm with hm | hm
    · exact absurd hm (by decide)
    · exact h1 hm
  have hsemi : ';' ∉ '/' :: 'a' :: 'l' :: 'l' :: '/' :: cat := by
    intro hm
    simp only [List.mem_cons] at hm
    rcases hm with h | h | h | h | h | h
    · exact absurd h (by decide)
    · exact absurd h (by decide)
    · exact absurd h (by decide)
    · exact absurd h (by decide)
    · exact absurd h (by decide)
    · exact h3 h
  simp only [urlPathQuery, hclean, splitAtFirst_not_mem hh,
    splitAtFirst_append qs hq, Option.getD_some]
  rw [urlPathOf_base, splitParams_no_semi hsemi]

/-- C4 (amended): `parse_category_path` succeeds exactly on URLs carrying
one of the two accepted prefixes — `https://www.avito.ru/all/` or
`http://www.avito.ru/all/` — and raises the fatal `ValueError` on every
other prefix (the original claim admitted only the https form, but the
source's prefix loop also accepts plain http).  On an accepted https URL
`https://www.avito.ru/all/<cat>?q=<v>` whose category path is free of the
delimiters `urlparse` acts on (`?`, `#`, the params separator `;`, and
the tab/CR/LF bytes `urlsplit` deletes) and whose value is plain
(quote-safe), it returns the category path and the re-encoded `q=<v>`
pair, and with no query string it returns the category path and no
query. -/
theorem parse_category_path_spec :
    (∀ url : String, exceptOk (parse_category_path url) =
      (List.isPrefixOf urlBaseHttps.toList url.toList ||
        List.isPrefixOf urlBaseHttp.toList url.toList)) ∧
    (∀ cat q : List Char, '?' ∉ cat → '#' ∉ cat → ';' ∉ cat →
      (∀ c ∈ cat, isUnsafeUrlByte c = false) → q ≠ [] →
      (∀ c ∈ q, quoteSafe c = true) →
      parse_category_path
          ((urlBaseHttps.toList ++ cat ++ '?' :: 'q' :: '=' :: q).asString) =
        Except.ok (cat.asString, some (('q' :: '=' :: q).asString)) ∧
      parse_category_path ((urlBaseHttps.toList ++ cat).asString) =
        Except.ok (cat.asString, none)) := by
  constructor
  · intro url
    unfold parse_category_path
    split
    · rename_i hok
      rw [hok]
      simp only [exceptOk]
      split
      · rfl
      · rename_i x a heq
        cases hpq : parse_qs_first (urlPathQuery url.toList).2 ['q'] <;>
          rw [hpq] at heq <;> cases heq
    · rename_i hnot
      simp only [exceptOk]
      symm
      exact (Bool.not_eq_true _).mp hnot
  · intro cat q hcat1 hcat2 hcat3 hcat4 hqne hqsafe
    have hq3 : '#' ∉ 'q' :: '=' :: q := by
      intro hm
      rcases List.mem_cons.1 hm with h | hm
      · exact absurd h (by decide)
      rcases List.mem_cons.1 hm with h | hm
      · exact absurd h (by decide)
      · exact absurd (hqsafe '#' hm) (by decide)
    have hq6 : ∀ c ∈ 'q' :: '=' :: q, isUnsafeUrlByte c = false := by
      intro c hc
      rcases List.mem_cons.1 hc with rfl | hc
      · rfl
      rcases List.mem_cons.1 hc with rfl | hc
      · rfl
      · exact quoteSafe_not_unsafe (hqsafe c hc)
    constructor
    · unfold parse_category_path
      rw [toList_asString]
      rw [if_pos]
      · rw [show urlBaseHttps.toList ++ cat ++ '?' :: 'q' :: '=' :: q =
            (urlBaseHttps.toList ++ cat) ++ '?' :: 'q' :: '=' :: q from by
          simp [List.append_assoc]]
        rw [urlPathQuery_query hcat1 hcat2 hcat3 hcat4 hq3 hq6]
        simp only [parse_qs_first_q hqne hqsafe]
        rw [show urlencode_q q = 'q' :: '=' :: q from by
          simp [urlencode_q, quote_plus_safe hqsafe]]
        rfl
      · rw [show urlBaseHttps.toList ++ cat ++ '?' :: 'q' :: '=' :: q =
            urlBaseHttps.toList ++ (cat ++ '?' :: 'q' :: '=' :: q) from by
          simp [List.append_assoc]]
        rw [isPrefixOf_append_self]
        simp
    · unfold parse_category_path
      rw [toList_asString]
      rw [if_pos (by rw [isPrefixOf_append_self]; simp)]
      rw [urlPathQuery_noquery hcat1 hcat2 hcat3 hcat4]
      simp [parse_qs_first_nil]

/-- Witness for C4 at the spec's example URL: category `uslugi/remont`,
query `q=iphone`. -/
theorem parse_category_path_spec_witness :
    parse_category_path
        ((urlBaseHttps.toList ++ "uslugi/remont".toList ++
          '?' :: 'q' :: '=' :: "iphone".toList).asString) =
      Except.ok ("uslugi/remont".toList.asString,
        some (('q' :: '=' :: "iphone".toList).asString)) ∧
    parse_category_path
        ((urlBaseHttps.toList ++ "uslugi/remont".toList).asString) =
      Except.ok ("uslugi/remont".toList.asString, none) :=
  parse_category_path_spec.2 "uslugi/remont".toList "iphone".toList
    (by decide) (by decide) (by decide) (by decide) (by decide) (by decide)

/-- Counterexample to C4 as stated: a URL with the plain-http prefix —
not the https prefix the claim requires — is accepted and parsed instead
of raising the fatal configuration error. -/
theorem url_http_accepted_counterexample :
    parse_category_path "http://www.avito.ru/all/uslugi" =
      Except.ok ("uslugi", none) ∧
    List.isPrefixOf urlBaseHttps.toList
      "http://www.avito.ru/all/uslugi".toList = false := by decide

/-- Fidelity check of the params split: as in CPython, `urlparse` cuts
the `;v=1` params suffix off the last path segment, so the category
drops it while the query survives. -/
theorem parse_category_path_params_example :
    parse_category_path "https://www.avito.ru/all/uslugi;v=1?q=iphone" =
      Except.ok ("uslugi", some "q=iphone") := by decide

/-- Fidelity check of the params split: as in CPython, a `;` in a
non-final path segment is kept. -/
theorem parse_category_path_mid_semicolon_example :
    parse_category_path "https://www.avito.ru/all/a;b/c" =
      Except.ok ("a;b/c", none) := by decide

/-- Fidelity check of the unsafe-byte removal: as in CPython, an embedded
tab is deleted by `urlsplit` before parsing, while the raw prefix check
still passes. -/
theorem parse_category_path_tab_example :
    parse_category_path "https://www.avito.ru/all/usl\tugi" =
      Except.ok ("uslugi", none) := by decide

end Avito
